import Mathlib

/-!
Verification development for the StockDataDump ingestion pipeline
(python/stockdatadump/storage.py, with the CLI entry points in app.py).

The Python code is shallowly embedded: pandas DataFrames become the
`Frame` structure below (named columns plus rows of cells), pyarrow
tables that `squeeze_numeric` manipulates become the dtype-annotated
`PTable` structure, byte payloads become `List Nat`, and fallible
library calls become `Except`.  Machine integers are modelled as `Int`
with explicit two-power bounds.  Pandas and pyarrow library calls that
the source relies on (pd.concat, pd.read_csv, pd.to_numeric,
utf-8 decoding, the columnar writers) are modelled at the granularity
the source uses them, with the modelling choices documented inline.
-/

/-- A single cell of a parsed table.  `na` is the missing-value marker
(pandas NaN): a distinct constructor, not zero and not an empty string. -/
inductive Cell where
  | na : Cell
  | intv : Int → Cell
  | floatv : Rat → Cell
  | strv : String → Cell
deriving DecidableEq, Repr

/-- A parsed rectangular table (pandas DataFrame): named columns in
order, and rows of cells aligned positionally with the columns. -/
structure Frame where
  cols : List String
  rows : List (List Cell)
deriving DecidableEq, Repr

/-- Index of the first column with the given name, if present. -/
def colIdx (cols : List String) (c : String) : Option Nat :=
  match cols with
  | [] => none
  | c2 :: rest => if c2 = c then some 0 else (colIdx rest c).map (· + 1)

/-- The cell of a positionally-aligned row at a named column
(missing-value marker when the column is absent or the row is short). -/
def getCellRow (cols : List String) (row : List Cell) (c : String) : Cell :=
  match colIdx cols c with
  | some i => row.getD i Cell.na
  | none => Cell.na

/-- Reindex one row from its source column list onto a target column
list, inserting the missing-value marker for absent columns.  This is
what pd.concat does to each row of a frame whose column set differs
from the union. -/
def reindexRow (src : List String) (tgt : List String) (row : List Cell) : List Cell :=
  tgt.map (fun c => getCellRow src row c)

/-- First-seen-order deduplication of a list of column names. -/
def dedupFirst (l : List String) : List String :=
  l.foldl (fun acc c => if c ∈ acc then acc else acc ++ [c]) []

/-- Ordered union of the column lists of a list of frames, first-seen
order across frames in input order (the column index pd.concat builds
with its default sort=False). -/
def unionCols (fs : List Frame) : List String :=
  fs.foldl (fun acc f => f.cols.foldl (fun a c => if c ∈ a then a else a ++ [c]) acc) []

/-- Row-wise concatenation of frames onto the ordered union of their
columns: the behavior of pd.concat(frames, ignore_index=True) for a
non-empty frame list (missing columns become the NaN marker). -/
def concatFrames (fs : List Frame) : Frame :=
  let cols := unionCols fs
  { cols := cols
    rows := (fs.map (fun f => f.rows.map (reindexRow f.cols cols))).flatten }

-- ### Text-level helpers shared by the parsing models

/-- Split a character list at every occurrence of the separator, the
semantics of Python str.split(sep): "a,b," gives ["a","b",""]. -/
def splitChar (sep : Char) : List Char → List (List Char)
  | [] => [[]]
  | c :: cs =>
    let r := splitChar sep cs
    if c = sep then [] :: r
    else
      match r with
      | [] => [[c]]
      | x :: xs => (c :: x) :: xs

/-- The whitespace characters Python str.lstrip and str.strip remove
(restricted to the ASCII range; the payloads of this pipeline are
ASCII-based CSV and JSON text). -/
def pyIsSpace (c : Char) : Bool :=
  c == ' ' || c == '\t' || c == '\n' || c == '\r' || c == Char.ofNat 11 || c == Char.ofNat 12

/-- Python str.lstrip with no argument. -/
def pyLstrip (s : String) : String := ⟨s.data.dropWhile pyIsSpace⟩

/-- Python str.startswith for a literal text argument. -/
def strStartsWith (s p : String) : Bool := s.data.take p.data.length == p.data

/-- Python str.strip with no argument. -/
def trimChars (l : List Char) : List Char :=
  ((l.dropWhile pyIsSpace).reverse.dropWhile pyIsSpace).reverse

def lbrace : Char := Char.ofNat 123
def rbrace : Char := Char.ofNat 125

-- ### Numeric token classification (the type inference pd.read_csv and
-- pd.read_json apply per column: integer, then float, then string)

/-- Non-empty all-digit character list. -/
def allDigits (l : List Char) : Bool := !l.isEmpty && l.all (·.isDigit)

/-- A token that parses as an integer (optional leading minus). -/
def intTok (l : List Char) : Bool :=
  match l with
  | '-' :: rest => allDigits rest
  | _ => allDigits l

/-- An unsigned decimal numeral with at most one dot and at least one
digit (exponents are not modelled; the dumps of this pipeline carry
plain decimal prices). -/
def numTok (l : List Char) : Bool :=
  let a := l.takeWhile (· ≠ '.')
  match l.dropWhile (· ≠ '.') with
  | [] => allDigits a
  | _ :: frac => a.all (·.isDigit) && frac.all (·.isDigit) && !(a.isEmpty && frac.isEmpty)

/-- A token that parses as a (possibly fractional) number. -/
def floatTok (l : List Char) : Bool :=
  match l with
  | '-' :: rest => numTok rest
  | _ => numTok l

def natOfDigits (l : List Char) : Nat :=
  l.foldl (fun n c => n * 10 + (c.toNat - 48)) 0

def intOfTok (l : List Char) : Int :=
  match l with
  | '-' :: rest => -(natOfDigits rest : Int)
  | _ => (natOfDigits l : Int)

def ratOfTok (l : List Char) : Rat :=
  match l with
  | '-' :: rest => -(ratOfTokAbs rest)
  | _ => ratOfTokAbs l
where
  ratOfTokAbs (l2 : List Char) : Rat :=
    let a := l2.takeWhile (· ≠ '.')
    match l2.dropWhile (· ≠ '.') with
    | [] => (natOfDigits a : Rat)
    | _ :: frac => (natOfDigits a : Rat) + (natOfDigits frac : Rat) / ((10 : Rat) ^ frac.length)

-- ### pd.read_csv model

inductive ParseErr where
  | decodeError : ParseErr
  | csvError : ParseErr
  | jsonError : ParseErr
  | emptyData : ParseErr
deriving DecidableEq, Repr

/-- Per-column type inference of pd.read_csv: a column of integer
tokens with no missing entries is an integer column; any fractional
token (or a missing entry among numerals, which forces NaN and hence
float64) makes a float column; anything else is a string column, with
empty fields read as the missing marker. -/
def inferColumn (toks : List (List Char)) : List Cell :=
  let present := toks.filter (fun t => !t.isEmpty)
  let hasMissing := toks.any (fun t => t.isEmpty)
  if present.all intTok && !hasMissing then
    toks.map (fun t => Cell.intv (intOfTok t))
  else if present.all floatTok then
    toks.map (fun t => if t.isEmpty then Cell.na else Cell.floatv (ratOfTok t))
  else
    toks.map (fun t => if t.isEmpty then Cell.na else Cell.strv (String.mk t))

/-- Model of pd.read_csv on decoded text, for the plain unquoted
comma-separated payloads this pipeline ingests: the first non-blank
line is the header, blank lines are skipped, and the expected field
count is established by the header together with the first data row —
when the first data row carries k extra fields, pandas uses the first
k columns of every row as the implicit row index (its documented
index_col inference).  A later row with more fields than the
established count is a parse error (pandas tokenizer error "Expected
N fields, saw M"); a row with fewer fields is padded on the right
with missing values.  Column types are inferred per `inferColumn`.
All-blank input is pandas EmptyDataError.  The implicit index cells
are dropped from the modelled frame because both pipeline paths
discard the index (pd.concat(ignore_index=True) and
pa.Table.from_pandas(preserve_index=False)). -/
def readCsv (text : String) : Except ParseErr Frame :=
  let lines := (splitChar '\n' text.data).filter (fun l => !l.isEmpty)
  match lines with
  | [] => Except.error ParseErr.emptyData
  | header :: body =>
    let cols := (splitChar ',' header).map (fun l => String.mk l)
    let raw := body.map (fun l => splitChar ',' l)
    let expected :=
      match raw with
      | [] => cols.length
      | r1 :: _ => max cols.length r1.length
    let idxCount := expected - cols.length
    if raw.any (fun r => expected < r.length) then Except.error ParseErr.csvError
    else
      let padded :=
        raw.map (fun r => (r ++ List.replicate (expected - r.length) []).drop idxCount)
      let colCells :=
        (List.range cols.length).map (fun j => inferColumn (padded.map (fun r => r.getD j [])))
      Except.ok
        { cols := cols
          rows := (List.range padded.length).map
            (fun i => colCells.map (fun cc => cc.getD i Cell.na)) }

-- ### pd.read_json(lines=True) model, for flat one-line records with
-- scalar values (the shape of the dumps this pipeline ingests)

def jsonValue (l : List Char) : Option Cell :=
  let t := trimChars l
  match t with
  | '"' :: rest =>
    if rest.getLast? == some '"' then some (Cell.strv ⟨rest.dropLast⟩) else none
  | _ =>
    if t = ['n', 'u', 'l', 'l'] then some Cell.na
    else if intTok t then some (Cell.intv (intOfTok t))
    else if floatTok t then some (Cell.floatv (ratOfTok t))
    else none

def jsonPair (l : List Char) : Option (String × Cell) :=
  match splitChar ':' l with
  | [k, v] =>
    match trimChars k with
    | '"' :: rest =>
      if rest.getLast? == some '"' then
        (jsonValue v).map (fun c => (String.mk rest.dropLast, c))
      else none
    | _ => none
  | _ => none

def jsonRecord (l : List Char) : Option (List (String × Cell)) :=
  let t := trimChars l
  match t with
  | c :: rest =>
    if c = lbrace && t.getLast? == some rbrace then
      let inner := rest.dropLast
      if (trimChars inner).isEmpty then some []
      else (splitChar ',' inner).mapM jsonPair
    else none
  | [] => none

/-- Model of pd.read_json(lines=True): each non-blank line is one flat
object; the frame columns are the first-seen union of the record keys;
a record lacking a key yields the missing marker.  Any malformed line
(or an empty payload) raises, modelled as a jsonError. -/
def readJsonLines (text : String) : Except ParseErr Frame :=
  let lines := (splitChar '\n' text.data).filter (fun l => !(trimChars l).isEmpty)
  match lines.mapM jsonRecord with
  | none => Except.error ParseErr.jsonError
  | some recs =>
    if recs.isEmpty then Except.error ParseErr.jsonError
    else
      let cols := dedupFirst ((recs.map (fun r => r.map (·.1))).flatten)
      Except.ok
        { cols := cols
          rows := recs.map (fun r =>
            cols.map (fun c => (((r.find? (fun p => p.1 == c)).map (·.2)).getD Cell.na))) }

-- ### Format detection and the single-source loader
-- (storage.py lines 16-37)

/-- storage._detect_format: lstrip the sample, classify as json when it
starts with an opening brace or bracket, csv otherwise. -/
def detect_format (sample : String) : String :=
  let head := pyLstrip sample
  if strStartsWith head "\x7b" || strStartsWith head "[" then "json" else "csv"

/-- The format actually used by dump_to_dataframe: the Python
expression fmt_hint or _detect_format(text[:1024]), so a None hint and
an empty-string hint both fall back to auto-detection on the first
1024 characters. -/
def chooseFmt (fmtHint : Option String) (text : String) : String :=
  match fmtHint with
  | some h => if h = "" then detect_format ⟨text.data.take 1024⟩ else h
  | none => detect_format ⟨text.data.take 1024⟩

-- ### UTF-8 decoding (bytes.decode("utf-8", errors="ignore"))

/-- A UTF-8 continuation byte. -/
def contByte (b : Nat) : Bool := 128 ≤ b && b ≤ 191

/-- Admissible second byte of a three-byte sequence (excludes overlong
encodings and surrogates). -/
def utf8Cont2 (b b2 : Nat) : Bool :=
  if b = 224 then 160 ≤ b2 && b2 ≤ 191
  else if b = 237 then 128 ≤ b2 && b2 ≤ 159
  else contByte b2

/-- Admissible second byte of a four-byte sequence (excludes overlong
encodings and code points beyond U+10FFFF). -/
def utf8Cont3 (b b2 : Nat) : Bool :=
  if b = 240 then 144 ≤ b2 && b2 ≤ 191
  else if b = 244 then 128 ≤ b2 && b2 ≤ 143
  else contByte b2

/-- One pass of the UTF-8 decoder.  Returns whether the whole input was
well-formed together with the decoded characters; ill-formed bytes are
dropped (the errors="ignore" policy: the offending lead byte is
skipped and decoding resumes).  The fuel argument bounds the recursion
(each step consumes at least one byte, so fuel = input length always
suffices). -/
def utf8Go : Nat → List Nat → Bool × List Char
  | 0, l => (l.isEmpty, [])
  | _ + 1, [] => (true, [])
  | fuel + 1, b :: rest =>
    if b ≤ 127 then
      let r := utf8Go fuel rest
      (r.1, Char.ofNat b :: r.2)
    else if 194 ≤ b && b ≤ 223 then
      match rest with
      | b2 :: rest2 =>
        if contByte b2 then
          let r := utf8Go fuel rest2
          (r.1, Char.ofNat ((b - 192) * 64 + (b2 - 128)) :: r.2)
        else (false, (utf8Go fuel rest).2)
      | [] => (false, [])
    else if 224 ≤ b && b ≤ 239 then
      match rest with
      | b2 :: b3 :: rest2 =>
        if utf8Cont2 b b2 && contByte b3 then
          let r := utf8Go fuel rest2
          (r.1, Char.ofNat ((b - 224) * 4096 + (b2 - 128) * 64 + (b3 - 128)) :: r.2)
        else (false, (utf8Go fuel rest).2)
      | _ => (false, (utf8Go fuel rest).2)
    else if 240 ≤ b && b ≤ 244 then
      match rest with
      | b2 :: b3 :: b4 :: rest2 =>
        if utf8Cont3 b b2 && contByte b3 && contByte b4 then
          let r := utf8Go fuel rest2
          (r.1, Char.ofNat ((b - 240) * 262144 + (b2 - 128) * 4096 + (b3 - 128) * 64 + (b4 - 128)) :: r.2)
        else (false, (utf8Go fuel rest).2)
      | _ => (false, (utf8Go fuel rest).2)
    else (false, (utf8Go fuel rest).2)

def utf8Run (l : List Nat) : Bool × List Char := utf8Go l.length l

/-- Whether a byte sequence is well-formed UTF-8. -/
def utf8Valid (l : List Nat) : Bool := (utf8Run l).1

/-- bytes.decode("utf-8", errors="ignore"): total, drops ill-formed
bytes. -/
def utf8DecodeIgnore (l : List Nat) : String := ⟨(utf8Run l).2⟩

/-- Modelled from the spec: the strict decode the claim describes, in
which a byte sequence that cannot be decoded as UTF-8 signals a
ParseError instead of producing text.  The source never calls this: it
decodes with errors="ignore". -/
def utf8DecodeStrict (l : List Nat) : Except ParseErr String :=
  if utf8Valid l then Except.ok (utf8DecodeIgnore l) else Except.error ParseErr.decodeError

/-- Dispatch on the chosen format (the tail of storage.dump_to_dataframe). -/
def parseText (text : String) (fmtHint : Option String) : Except ParseErr Frame :=
  let fmt := chooseFmt fmtHint text
  if fmt = "json" then readJsonLines text else readCsv text

/-- storage.dump_to_dataframe on the decompressed payload bytes:
decode with errors="ignore", pick the format, parse. -/
def dump_to_dataframe (raw : List Nat) (fmtHint : Option String) : Except ParseErr Frame :=
  parseText (utf8DecodeIgnore raw) fmtHint

/-- Whether a single-source parse result is a decode failure. -/
def isDecodeFailure : Except ParseErr Frame → Bool
  | Except.error ParseErr.decodeError => true
  | _ => false

/-- Modelled from the spec: the strict single-source parser the claim
describes, which fails on undecodable bytes before parsing. -/
def dumpToDataframeStrict (raw : List Nat) (fmtHint : Option String) : Except ParseErr Frame :=
  match utf8DecodeStrict raw with
  | Except.error e => Except.error e
  | Except.ok text => parseText text fmtHint

-- ### dumps_to_table and the convert command guard
-- (storage.py lines 40-43, app.py lines 124-127)

inductive PipeErr where
  | parse : ParseErr → PipeErr
  | noObjectsToConcatenate : PipeErr
  | badParameter : PipeErr
deriving DecidableEq, Repr

/-- The list comprehension in dumps_to_table: parse every dump,
propagating the first parse failure. -/
def parseAllDumps : List (List Nat) → Option String → Except ParseErr (List Frame)
  | [], _ => Except.ok []
  | raw :: rest, hint =>
    match dump_to_dataframe raw hint with
    | Except.error e => Except.error e
    | Except.ok f =>
      match parseAllDumps rest hint with
      | Except.error e => Except.error e
      | Except.ok fs => Except.ok (f :: fs)

/-- storage.dumps_to_table: parse all dumps then pd.concat them.
pd.concat raises ValueError("No objects to concatenate") on an empty
list, modelled as the noObjectsToConcatenate error. -/
def dumps_to_table (raws : List (List Nat)) (fmtHint : Option String) : Except PipeErr Frame :=
  match parseAllDumps raws fmtHint with
  | Except.error e => Except.error (PipeErr.parse e)
  | Except.ok frames =>
    if frames.isEmpty then Except.error PipeErr.noObjectsToConcatenate
    else Except.ok (concatFrames frames)

/-- The input side of the convert CLI command (app.py): when no dump
files match the glob it raises typer.BadParameter before calling
dumps_to_table (the downstream squeeze and write steps are not part of
this guard). -/
def convertCommand (raws : List (List Nat)) (fmtHint : Option String) : Except PipeErr Frame :=
  if raws.isEmpty then Except.error PipeErr.badParameter
  else dumps_to_table raws fmtHint

-- ### Bulk-archive extractor (storage.stooq_zip_to_table, lines 45-66)

/-- Path(name).name for forward-slash entry names (zip archive entry
names always use forward slashes). -/
def afterLastSlash (l : List Char) : List Char :=
  l.foldl (fun acc c => if c = '/' then [] else acc ++ [c]) []

/-- Index of the last dot in a character list. -/
def rfindDot : List Char → Option Nat
  | [] => none
  | c :: cs =>
    match rfindDot cs with
    | some j => some (j + 1)
    | none => if c = '.' then some 0 else none

/-- pathlib drops the final suffix only when its dot is neither the
first nor the last character of the base name. -/
def stemChars (base : List Char) : List Char :=
  match rfindDot base with
  | some i => if 0 < i && i < base.length - 1 then base.take i else base
  | none => base

/-- Path(name).stem: base filename without its last extension. -/
def pyStem (name : String) : String := ⟨stemChars (afterLastSlash name.data)⟩

/-- Python str.upper for the ASCII names this pipeline sees. -/
def pyUpper (s : String) : String := ⟨s.data.map Char.toUpper⟩

/-- Python str.lower for the ASCII names this pipeline sees. -/
def pyLower (s : String) : String := ⟨s.data.map Char.toLower⟩

/-- Python str.endswith. -/
def strEndsWith (s suf : String) : Bool :=
  decide (suf.data.length ≤ s.data.length) &&
    (s.data.drop (s.data.length - suf.data.length) == suf.data)

/-- The symbol added to each parsed entry in stooq_zip_to_table:
Path(name).stem.split(".")[0].upper(), where split(".")[0] is the text
before the first dot of the stem. -/
def symbolOf (name : String) : String :=
  pyUpper ⟨(pyStem name).data.takeWhile (· ≠ '.')⟩

/-- The extension filter of the entry loop: keep names whose lowercase
form ends in .csv or .txt. -/
def validExt (name : String) : Bool :=
  strEndsWith (pyLower name) ".csv" || strEndsWith (pyLower name) ".txt"

/-- df["Symbol"] = sym: replaces the column in place when it already
exists, otherwise appends it as the last column. -/
def withSymbol (df : Frame) (sym : String) : Frame :=
  match colIdx df.cols "Symbol" with
  | some i => { cols := df.cols, rows := df.rows.map (fun r => r.set i (Cell.strv sym)) }
  | none => { cols := df.cols ++ ["Symbol"], rows := df.rows.map (fun r => r ++ [Cell.strv sym]) }

/-- One entry of the decompressed zip archive: its name and the decoded
text content handed to pd.read_csv. -/
structure ZipEntry where
  name : String
  text : String
deriving DecidableEq, Repr

/-- The contribution of a single archive entry to the collected frame
list: nothing when the extension is filtered out or the parse fails,
the symbol-tagged frame otherwise. -/
def entryFrame (e : ZipEntry) : Option Frame :=
  if validExt e.name then
    match readCsv e.text with
    | Except.error _ => none
    | Except.ok df => some (withSymbol df (symbolOf e.name))
  else none

/-- One iteration of the entry loop of stooq_zip_to_table: skip a
wrong extension, try pd.read_csv and on any exception continue,
otherwise tag with the symbol and append. -/
def stooqStep (dfs : List Frame) (e : ZipEntry) : List Frame :=
  if validExt e.name then
    match readCsv e.text with
    | Except.error _ => dfs
    | Except.ok df => dfs ++ [withSymbol df (symbolOf e.name)]
  else dfs

/-- The dfs accumulation loop of stooq_zip_to_table, over the entries
in archive order. -/
def collectStooqFrames (entries : List ZipEntry) : List Frame :=
  entries.foldl stooqStep []

/-- pa.Table.from_pandas(pd.DataFrame()): zero rows, zero columns. -/
def emptyFrame : Frame := { cols := [], rows := [] }

/-- storage.stooq_zip_to_table on the entry list of the decompressed
archive: collect the parsed frames, return the explicit empty table
when none parsed, otherwise pd.concat them. -/
def stooq_zip_to_table (entries : List ZipEntry) : Frame :=
  let dfs := collectStooqFrames entries
  if dfs.isEmpty then emptyFrame else concatFrames dfs

-- ### Numeric narrower (storage.squeeze_numeric, lines 90-99)

inductive IntWidth where
  | i8 | i16 | i32 | i64
deriving DecidableEq, Repr

def IntWidth.bits : IntWidth → Nat
  | IntWidth.i8 => 8
  | IntWidth.i16 => 16
  | IntWidth.i32 => 32
  | IntWidth.i64 => 64

/-- Whether a value is inside the signed range of a width. -/
def fitsWidth (w : IntWidth) (n : Int) : Bool :=
  decide (-(2 ^ (w.bits - 1) : Int) ≤ n) && decide (n < (2 ^ (w.bits - 1) : Int))

def widthOrder : List IntWidth := [IntWidth.i8, IntWidth.i16, IntWidth.i32, IntWidth.i64]

/-- pd.to_numeric(col, downcast="integer"): the first (smallest) signed
integer width whose itemsize does not exceed the current dtype and
whose range holds every value; the dtype is kept when none qualifies. -/
def downcastInteger (w : IntWidth) (vs : List Int) : IntWidth :=
  match widthOrder.find? (fun w2 => decide (w2.bits ≤ w.bits) && vs.all (fitsWidth w2)) with
  | some w2 => w2
  | none => w

inductive FloatWidth where
  | f32 | f64
deriving DecidableEq, Repr

/-- A typed column of the table squeeze_numeric rewrites: an integer
dtype with its width, a float dtype with its width (values modelled as
rationals), or a non-numeric column. -/
inductive ColData where
  | intsC : IntWidth → List Int → ColData
  | floatsC : FloatWidth → List Rat → ColData
  | strsC : List String → ColData
deriving DecidableEq, Repr

/-- The pyarrow table squeeze_numeric receives, as named typed columns. -/
structure PTable where
  cols : List (String × ColData)
deriving DecidableEq, Repr

/-- One column of storage.squeeze_numeric: integer dtype columns go
through pd.to_numeric(downcast="integer"), float dtype columns are cast
to float64 with values untouched, everything else passes through. -/
def squeezeCol : ColData → ColData
  | ColData.intsC w vs => ColData.intsC (downcastInteger w vs) vs
  | ColData.floatsC _ vs => ColData.floatsC FloatWidth.f64 vs
  | ColData.strsC vs => ColData.strsC vs

def squeeze_numeric (t : PTable) : PTable :=
  ⟨t.cols.map (fun p => (p.1, squeezeCol p.2))⟩

/-- A well-formed column: an integer column holds only values inside
its declared width (true of any column a real machine dtype carries). -/
def colWF : ColData → Bool
  | ColData.intsC w vs => vs.all (fitsWidth w)
  | ColData.floatsC _ _ => true
  | ColData.strsC _ => true

/-- A well-formed table: every column is well-formed. -/
def PTableWF (t : PTable) : Prop :=
  ∀ p ∈ t.cols, colWF p.2 = true

/-- Modelled from the spec: the smallest of the four signed widths
that represents every value of the column exactly. -/
def minIntWidth (vs : List Int) : IntWidth :=
  if vs.all (fitsWidth IntWidth.i8) then IntWidth.i8
  else if vs.all (fitsWidth IntWidth.i16) then IntWidth.i16
  else if vs.all (fitsWidth IntWidth.i32) then IntWidth.i32
  else IntWidth.i64

/-- Modelled from the spec: narrow integer columns to the smallest
lossless width, keep fractional columns at float64, pass every
non-numeric column through unchanged. -/
def narrowSpecCol : ColData → ColData
  | ColData.intsC _ vs => ColData.intsC (minIntWidth vs) vs
  | ColData.floatsC _ vs => ColData.floatsC FloatWidth.f64 vs
  | ColData.strsC vs => ColData.strsC vs

-- ### Spec-side helper definitions used in claim statements

/-- The first non-whitespace character of a text, if any. -/
def firstNonWs (s : String) : Option Char := (s.data.dropWhile pyIsSpace).head?

/-- Modelled from the spec: the symbol the claim describes, derived
from the base filename by taking the substring before the first dot
(which is what remains after stripping every extension) and
upper-casing it. -/
def symbolSpec (name : String) : String :=
  pyUpper ⟨(afterLastSlash name.data).takeWhile (· ≠ '.')⟩

/-- Whether an Except value is the error case (a raised exception). -/
def exceptFailed : Except ParseErr Frame → Bool
  | Except.error _ => true
  | Except.ok _ => false

-- ### Columnar writer (storage.write_arrow_table, lines 69-87)

/-- One piece of the byte stream a columnar write emits: a body chunk,
or the terminal footer with its magic.  Both supported container
formats (parquet and feather/Arrow-IPC) place a footer with magic
bytes at the very end of the file; a reader rejects a file without the
terminal footer as invalid, so only a file ending in the footer claims
completeness. -/
inductive Piece where
  | chunk : List Nat → Piece
  | footerMagic : Piece
deriving DecidableEq, Repr

inductive WriteFormat where
  | parquet | feather
deriving DecidableEq, Repr

/-- Body byte chunks of the serialized table (one chunk per column;
the write-atomicity claims depend only on every body piece preceding
the footer, not on the exact bytes). -/
def bodyChunks (t : PTable) : List (List Nat) :=
  t.cols.map (fun p => p.1.data.map Char.toNat)

/-- The full piece stream of one write: body, then the footer. -/
def writePieces (t : PTable) : List Piece :=
  (bodyChunks t).map Piece.chunk ++ [Piece.footerMagic]

/-- The file system as a map from paths to piece streams. -/
abbrev FileSys := List (String × List Piece)

def fsSet (fs : FileSys) (path : String) (content : List Piece) : FileSys :=
  (path, content) :: fs.filter (fun p => p.1 != path)

def fsGet (fs : FileSys) (path : String) : Option (List Piece) :=
  (fs.find? (fun p => p.1 == path)).map (fun p => p.2)

def fsErase (fs : FileSys) (path : String) : FileSys :=
  fs.filter (fun p => p.1 != path)

inductive WriteErr where
  | writeError
deriving DecidableEq, Repr

/-- storage.write_arrow_table as a state transformer on the file
system, streaming the serialized pieces directly to the destination.
failAfter = none is a fault-free run; failAfter = some k injects an
I/O failure (disk full, destination unwritable) after k pieces have
reached the destination.  pq.write_table leaves the pieces written so
far on disk when it raises; feather.write_feather removes the
destination file when it raises.  Parent-directory creation is not
tracked. -/
def write_arrow_table (fs : FileSys) (table : PTable) (output : String)
    (format : WriteFormat) (failAfter : Option Nat) :
    Except WriteErr String × FileSys :=
  let pieces := writePieces table
  match failAfter with
  | none => (Except.ok output, fsSet fs output pieces)
  | some k =>
    if k < pieces.length then
      match format with
      | WriteFormat.feather => (Except.error WriteErr.writeError, fsErase fs output)
      | WriteFormat.parquet => (Except.error WriteErr.writeError, fsSet fs output (pieces.take k))
    else (Except.ok output, fsSet fs output pieces)

/-- A piece stream claims to be a complete columnar file exactly when
it ends with the terminal footer. -/
def claimsComplete (file : List Piece) : Bool := file.getLast? == some Piece.footerMagic

/-- Whether the file system holds a complete-claiming file at a path. -/
def fileClaimsComplete (fs : FileSys) (path : String) : Bool :=
  match fsGet fs path with
  | some file => claimsComplete file
  | none => false

-- ## Lemmas

-- ### Basic lemmas about colIdx / getCellRow

theorem colIdx_mem (cols : List String) (c : String) :
    c ∈ cols ↔ (colIdx cols c).isSome := by
  induction cols with
  | nil => simp [colIdx]
  | cons c2 rest ih =>
    by_cases h : c2 = c
    · subst h; simp [colIdx]
    · simp only [colIdx, if_neg h, List.mem_cons]
      cases hx : colIdx rest c with
      | none =>
        simp [hx] at ih ⊢
        exact ⟨fun he => h he.symm, ih⟩
      | some i => simp [hx] at ih ⊢; exact Or.inr ih

theorem getCellRow_map (tgt : List String) (g : String → Cell) (c : String) :
    getCellRow tgt (tgt.map g) c =
      (match colIdx tgt c with
       | some _ => g c
       | none => Cell.na) := by
  induction tgt with
  | nil => simp [getCellRow, colIdx]
  | cons c2 rest ih =>
    by_cases h : c2 = c
    · subst h; simp [getCellRow, colIdx]
    · cases hx : colIdx rest c with
      | none =>
        simp only [getCellRow, hx] at ih
        simp only [getCellRow, colIdx, if_neg h, hx, Option.map_none', List.map_cons]
      | some i =>
        simp only [getCellRow, hx] at ih
        simp only [getCellRow, colIdx, if_neg h, hx, Option.map_some', List.map_cons,
          List.getD_cons_succ]
        exact ih

theorem getCellRow_not_mem (cols : List String) (row : List Cell) (c : String)
    (h : c ∉ cols) : getCellRow cols row c = Cell.na := by
  cases hx : colIdx cols c with
  | none => simp [getCellRow, hx]
  | some i =>
    exfalso
    exact h ((colIdx_mem cols c).mpr (by simp [hx]))

/-- Reindexed cell access: a reindexed row reads back the source cell
for columns the source frame has, and the missing marker otherwise. -/
theorem reindex_cell (src tgt : List String) (row : List Cell) (c : String)
    (hc : c ∈ tgt) :
    getCellRow tgt (reindexRow src tgt row) c =
      if c ∈ src then getCellRow src row c else Cell.na := by
  have h1 := getCellRow_map tgt (fun c2 => getCellRow src row c2) c
  have h2 : (colIdx tgt c).isSome := (colIdx_mem tgt c).mp hc
  by_cases hs : c ∈ src
  · cases hx : colIdx tgt c with
    | none => rw [hx] at h2; simp at h2
    | some i =>
      rw [hx] at h1
      simp [reindexRow, h1, hs]
  · cases hx : colIdx tgt c with
    | none => rw [hx] at h2; simp at h2
    | some i =>
      rw [hx] at h1
      simp [reindexRow, h1, hs, getCellRow_not_mem src row c hs]

-- ### Lemmas about the single-source parser

theorem readCsv_not_decodeFailure (text : String) :
    isDecodeFailure (readCsv text) = false := by
  simp only [readCsv]
  split
  · rfl
  · split <;> rfl

theorem readJsonLines_not_decodeFailure (text : String) :
    isDecodeFailure (readJsonLines text) = false := by
  simp only [readJsonLines]
  split
  · rfl
  · split <;> rfl

theorem parseText_not_decodeFailure (text : String) (hint : Option String) :
    isDecodeFailure (parseText text hint) = false := by
  unfold parseText
  by_cases h : chooseFmt hint text = "json"
  · simp [h, readJsonLines_not_decodeFailure]
  · simp [h, readCsv_not_decodeFailure]

-- ## Claim theorems

/-- C10: dumps_to_table on an empty sequence of paths raises (the
pd.concat of zero frames fails with "No objects to concatenate")
rather than returning an empty table, and the convert CLI command
guards the zero-input case itself, raising a usage error when no dump
files match before dumps_to_table is ever called. -/
theorem c10_empty_input_raises :
    (∀ hint : Option String,
      dumps_to_table [] hint = Except.error PipeErr.noObjectsToConcatenate) ∧
    (∀ hint : Option String,
      convertCommand [] hint = Except.error PipeErr.badParameter) := by
  exact ⟨fun _ => rfl, fun _ => rfl⟩

/-- C8 counterexample: a payload whose bytes are not valid UTF-8 (a
stray 0xFF byte before plain CSV text) is not rejected by
dump_to_dataframe; the invalid byte is ignored and a frame is
produced, contradicting the claim that such payloads signal a
ParseError. -/
theorem c8_counterexample :
    utf8Valid [255, 97, 44, 98, 10, 49, 44, 50] = false ∧
    dump_to_dataframe [255, 97, 44, 98, 10, 49, 44, 50] none =
      Except.ok { cols := ["a", "b"], rows := [[Cell.intv 1, Cell.intv 2]] } := by
  exact ⟨rfl, rfl⟩

/-- C8 (amended): dump_to_dataframe decodes the payload with
errors="ignore", so its result is never a decode failure — undecodable
bytes are dropped and parsing proceeds on the remaining text; the
strict parser the claim describes agrees with the implementation on
every payload that is well-formed UTF-8. -/
theorem c8_amended_no_decode_error :
    (∀ (raw : List Nat) (hint : Option String),
      isDecodeFailure (dump_to_dataframe raw hint) = false) ∧
    (∀ (raw : List Nat) (hint : Option String), utf8Valid raw = true →
      dumpToDataframeStrict raw hint = dump_to_dataframe raw hint) := by
  constructor
  · intro raw hint
    exact parseText_not_decodeFailure (utf8DecodeIgnore raw) hint
  · intro raw hint hvalid
    simp [dumpToDataframeStrict, utf8DecodeStrict, hvalid, dump_to_dataframe]

/-- C8 amended-claim witness at a concrete valid payload. -/
theorem c8_amended_witness :
    utf8Valid [97, 44, 98, 10, 49, 44, 50] = true ∧
    dumpToDataframeStrict [97, 44, 98, 10, 49, 44, 50] none =
      dump_to_dataframe [97, 44, 98, 10, 49, 44, 50] none :=
  ⟨rfl, c8_amended_no_decode_error.2 [97, 44, 98, 10, 49, 44, 50] none rfl⟩

-- ### C7: format detection

theorem strStartsWith_single (l : List Char) (c : Char) :
    strStartsWith ⟨l⟩ ⟨[c]⟩ = (l.head? == some c) := by
  cases l with
  | nil => rfl
  | cons a as =>
    show ((a == c) && true) = (a == c)
    exact Bool.and_true _

/-- C7: detect_format classifies a sample as json exactly when its
first non-whitespace character is an opening brace or bracket, and csv
otherwise; an explicit (non-empty) format hint supplied by the caller
overrides auto-detection; the structured and tabular examples classify
as stated. -/
theorem c7_format_detection :
    (∀ s : String, detect_format s = "json" ↔
      (firstNonWs s = some lbrace ∨ firstNonWs s = some '[')) ∧
    (∀ (hint text : String), hint ≠ "" → chooseFmt (some hint) text = hint) ∧
    chooseFmt none "\x7b\"a\":1\x7d" = "json" ∧
    chooseFmt none "symbol,price\nAAPL,1" = "csv" := by
  refine ⟨?_, ?_, rfl, rfl⟩
  · intro s
    simp only [detect_format, pyLstrip, firstNonWs]
    rw [show ("\x7b" : String) = ⟨[lbrace]⟩ from rfl,
      show ("[" : String) = ⟨['[']⟩ from rfl]
    simp only [strStartsWith_single]
    cases hx : (s.data.dropWhile pyIsSpace).head? with
    | none => decide
    | some a =>
      by_cases h1 : a = lbrace
      · subst h1; decide
      · by_cases h2 : a = '['
        · subst h2; decide
        · simp [h1, h2]
  · intro hint text h
    simp [chooseFmt, h]

/-- C7 witness: the hint-override branch at a concrete hint and text
(the hint wins even when detection would disagree). -/
theorem c7_format_detection_witness :
    chooseFmt (some "csv") "\x7b\"a\":1\x7d" = "csv" :=
  c7_format_detection.2.1 "csv" "\x7b\"a\":1\x7d" (by decide)

-- ### Lemmas about the bulk-archive extractor

theorem stooqStep_eq (dfs : List Frame) (e : ZipEntry) :
    stooqStep dfs e = dfs ++ (entryFrame e).toList := by
  unfold stooqStep entryFrame
  by_cases hv : validExt e.name
  · cases hr : readCsv e.text with
    | error err => simp [hv, hr]
    | ok df => simp [hv, hr]
  · simp [hv]

theorem foldl_stooqStep (entries : List ZipEntry) :
    ∀ acc : List Frame,
      entries.foldl stooqStep acc = acc ++ entries.filterMap entryFrame := by
  induction entries with
  | nil => intro acc; simp
  | cons e es ih =>
    intro acc
    rw [List.foldl_cons, ih, stooqStep_eq, List.filterMap_cons]
    cases entryFrame e with
    | none => simp
    | some df => simp

theorem collect_eq_filterMap (entries : List ZipEntry) :
    collectStooqFrames entries = entries.filterMap entryFrame := by
  unfold collectStooqFrames
  rw [foldl_stooqStep entries []]
  rfl

theorem entryFrame_of_parse_error (e : ZipEntry) (err : ParseErr)
    (h : readCsv e.text = Except.error err) : entryFrame e = none := by
  unfold entryFrame
  by_cases hv : validExt e.name
  · simp [hv, h]
  · simp [hv]

theorem filterMap_entryFrame_filter (entries : List ZipEntry) :
    entries.filterMap entryFrame =
      (entries.filter (fun e => validExt e.name)).filterMap entryFrame := by
  induction entries with
  | nil => rfl
  | cons e es ih =>
    by_cases hv : validExt e.name
    · simp only [List.filterMap_cons, List.filter_cons, hv, if_true, ih]
    · have hnone : entryFrame e = none := by
        unfold entryFrame
        simp [hv]
      simp [List.filterMap_cons, List.filter_cons, hv, hnone, ih]

/-- C4: a parse failure of one archive entry is silently skipped:
the extractor is a total function (no exception escapes), removing the
failing entry from the archive does not change the resulting table,
and the collected frame list is exactly the tagged frames of the
entries that do parse. -/
theorem c4_skip_failing_entry (pre post : List ZipEntry) (bad : ZipEntry)
    (err : ParseErr) (hbad : readCsv bad.text = Except.error err) :
    stooq_zip_to_table (pre ++ bad :: post) = stooq_zip_to_table (pre ++ post) ∧
    collectStooqFrames (pre ++ bad :: post) = (pre ++ post).filterMap entryFrame := by
  have hmid : (pre ++ bad :: post).filterMap entryFrame = (pre ++ post).filterMap entryFrame := by
    rw [List.filterMap_append, List.filterMap_append, List.filterMap_cons,
      entryFrame_of_parse_error bad err hbad]
  constructor
  · unfold stooq_zip_to_table
    rw [collect_eq_filterMap, collect_eq_filterMap, hmid]
  · rw [collect_eq_filterMap, hmid]

/-- C4 witness: an archive with three valid CSV entries and one entry
whose parse throws extracts the same table as the archive without the
bad entry, and the collected frames are exactly those of the three
valid entries. -/
theorem c4_skip_failing_entry_witness :
    stooq_zip_to_table
        [⟨"aapl.us.txt", "a,b\n1,2"⟩, ⟨"msft.us.txt", "a,b\n3,4"⟩,
         ⟨"bad.us.txt", "a,b\n1,2\n1,2,3"⟩, ⟨"spy.us.txt", "a,b\n5,6"⟩] =
      stooq_zip_to_table
        [⟨"aapl.us.txt", "a,b\n1,2"⟩, ⟨"msft.us.txt", "a,b\n3,4"⟩,
         ⟨"spy.us.txt", "a,b\n5,6"⟩] ∧
    collectStooqFrames
        [⟨"aapl.us.txt", "a,b\n1,2"⟩, ⟨"msft.us.txt", "a,b\n3,4"⟩,
         ⟨"bad.us.txt", "a,b\n1,2\n1,2,3"⟩, ⟨"spy.us.txt", "a,b\n5,6"⟩] =
      ([⟨"aapl.us.txt", "a,b\n1,2"⟩, ⟨"msft.us.txt", "a,b\n3,4"⟩,
        ⟨"spy.us.txt", "a,b\n5,6"⟩] : List ZipEntry).filterMap entryFrame :=
  c4_skip_failing_entry
    [⟨"aapl.us.txt", "a,b\n1,2"⟩, ⟨"msft.us.txt", "a,b\n3,4"⟩]
    [⟨"spy.us.txt", "a,b\n5,6"⟩]
    ⟨"bad.us.txt", "a,b\n1,2\n1,2,3"⟩ ParseErr.csvError rfl

/-- C5: an archive in which zero entries parse successfully — every
entry either has a filtered-out extension or fails to parse — yields
the explicitly empty table (zero rows, zero columns); the extractor
returns it rather than raising. -/
theorem c5_zero_parsed_empty (entries : List ZipEntry)
    (h : ∀ e ∈ entries,
      validExt e.name = false ∨ exceptFailed (readCsv e.text) = true) :
    stooq_zip_to_table entries = emptyFrame ∧
    (stooq_zip_to_table entries).cols = [] ∧
    (stooq_zip_to_table entries).rows = [] := by
  have hnone : ∀ e ∈ entries, entryFrame e = none := by
    intro e he
    rcases h e he with hv | hf
    · unfold entryFrame
      simp [hv]
    · cases hr : readCsv e.text with
      | error err => exact entryFrame_of_parse_error e err hr
      | ok df => rw [hr] at hf; simp [exceptFailed] at hf
  have hcollect : collectStooqFrames entries = [] := by
    rw [collect_eq_filterMap]
    exact List.filterMap_eq_nil_iff.mpr hnone
  refine ⟨?_, ?_, ?_⟩ <;> (unfold stooq_zip_to_table; rw [hcollect]; rfl)

-- ### Lemmas about symbol derivation from entry names

theorem rfindDot_get (l : List Char) (i : Nat) (h : rfindDot l = some i) :
    l[i]? = some '.' := by
  induction l generalizing i with
  | nil => simp [rfindDot] at h
  | cons c cs ih =>
    unfold rfindDot at h
    cases hr : rfindDot cs with
    | some j =>
      rw [hr] at h
      injection h with h
      subst h
      simpa using ih j hr
    | none =>
      rw [hr] at h
      by_cases hc : c = '.'
      · rw [if_pos hc] at h
        injection h with h
        subst h
        simp [hc]
      · rw [if_neg hc] at h
        exact absurd h (by simp)

theorem takeWhile_take_of_stop {p : Char → Bool} (l : List Char) (i : Nat) (c0 : Char)
    (h : l[i]? = some c0) (hp : p c0 = false) :
    (l.take i).takeWhile p = l.takeWhile p := by
  induction l generalizing i with
  | nil => simp at h
  | cons c cs ih =>
    cases i with
    | zero =>
      rw [List.getElem?_cons_zero] at h
      injection h with h
      subst h
      simp [List.takeWhile_cons, hp]
    | succ j =>
      rw [List.getElem?_cons_succ] at h
      rw [List.take_succ_cons]
      cases hpc : p c with
      | false => simp [List.takeWhile_cons, hpc]
      | true => simp [List.takeWhile_cons, hpc, ih j h]

theorem takeWhile_stemChars (base : List Char) :
    (stemChars base).takeWhile (fun c => c ≠ '.') = base.takeWhile (fun c => c ≠ '.') := by
  unfold stemChars
  cases hr : rfindDot base with
  | none => rfl
  | some i =>
    dsimp only
    by_cases hcond : (0 < i && i < base.length - 1) = true
    · rw [if_pos hcond]
      exact takeWhile_take_of_stop base i '.' (rfindDot_get base i hr) (by decide)
    · rw [if_neg hcond]

theorem symbolOf_eq_symbolSpec (name : String) : symbolOf name = symbolSpec name := by
  unfold symbolOf symbolSpec pyStem
  rw [show (⟨stemChars (afterLastSlash name.data)⟩ : String).data
        = stemChars (afterLastSlash name.data) from rfl,
    takeWhile_stemChars]

/-- C6: the symbol appended to each successfully parsed entry is the
base filename with path and extensions stripped (the substring before
the first dot of the base name), upper-cased — "sub/aapl.us.txt"
yields "AAPL" — and entries whose lowercased name does not end in .csv
or .txt contribute nothing to the extraction. -/
theorem c6_symbol_and_extension_filter :
    (∀ name : String, symbolOf name = symbolSpec name) ∧
    symbolOf "sub/aapl.us.txt" = "AAPL" ∧
    (∀ entries : List ZipEntry,
      collectStooqFrames entries =
        collectStooqFrames (entries.filter (fun e => validExt e.name)) ∧
      stooq_zip_to_table entries =
        stooq_zip_to_table (entries.filter (fun e => validExt e.name))) := by
  refine ⟨symbolOf_eq_symbolSpec, rfl, fun entries => ?_⟩
  have hc : collectStooqFrames entries =
      collectStooqFrames (entries.filter (fun e => validExt e.name)) := by
    rw [collect_eq_filterMap, collect_eq_filterMap, ← filterMap_entryFrame_filter]
  exact ⟨hc, by unfold stooq_zip_to_table; rw [hc]⟩

/-- C5 witness: an archive whose entries are a non-CSV name and a
malformed CSV extracts the explicitly empty table. -/
theorem c5_zero_parsed_empty_witness :
    stooq_zip_to_table [⟨"readme.md", "a,b\n1,2"⟩, ⟨"bad.csv", "a,b\n1,2\n1,2,3"⟩] = emptyFrame ∧
    (stooq_zip_to_table [⟨"readme.md", "a,b\n1,2"⟩, ⟨"bad.csv", "a,b\n1,2\n1,2,3"⟩]).cols = [] ∧
    (stooq_zip_to_table [⟨"readme.md", "a,b\n1,2"⟩, ⟨"bad.csv", "a,b\n1,2\n1,2,3"⟩]).rows = [] :=
  c5_zero_parsed_empty [⟨"readme.md", "a,b\n1,2"⟩, ⟨"bad.csv", "a,b\n1,2\n1,2,3"⟩] (by decide)

-- ### Lemmas about the numeric narrower

theorem downcast_eq_min (w : IntWidth) (vs : List Int)
    (hwf : vs.all (fitsWidth w) = true) :
    downcastInteger w vs = minIntWidth vs := by
  cases w with
  | i8 =>
    simp [downcastInteger, minIntWidth, widthOrder, List.find?, hwf, IntWidth.bits]
  | i16 =>
    cases h8 : vs.all (fitsWidth IntWidth.i8) <;>
      simp [downcastInteger, minIntWidth, widthOrder, List.find?, hwf, h8, IntWidth.bits]
  | i32 =>
    cases h8 : vs.all (fitsWidth IntWidth.i8) <;>
      cases h16 : vs.all (fitsWidth IntWidth.i16) <;>
      simp [downcastInteger, minIntWidth, widthOrder, List.find?, hwf, h8, h16, IntWidth.bits]
  | i64 =>
    cases h8 : vs.all (fitsWidth IntWidth.i8) <;>
      cases h16 : vs.all (fitsWidth IntWidth.i16) <;>
      cases h32 : vs.all (fitsWidth IntWidth.i32) <;>
      simp [downcastInteger, minIntWidth, widthOrder, List.find?, hwf, h8, h16, h32,
        IntWidth.bits]

theorem squeezeCol_idem (c : ColData) : squeezeCol (squeezeCol c) = squeezeCol c := by
  cases c with
  | intsC w vs =>
    simp only [squeezeCol, ColData.intsC.injEq, and_true]
    cases w <;>
      cases h8 : vs.all (fitsWidth IntWidth.i8) <;>
      cases h16 : vs.all (fitsWidth IntWidth.i16) <;>
      cases h32 : vs.all (fitsWidth IntWidth.i32) <;>
      cases h64 : vs.all (fitsWidth IntWidth.i64) <;>
      simp [downcastInteger, widthOrder, List.find?, h8, h16, h32, h64, IntWidth.bits]
  | floatsC fw vs => rfl
  | strsC vs => rfl

/-- C1: squeeze_numeric re-encodes every integer column of a
well-formed table at the smallest signed width (8/16/32/64-bit) that
represents every value exactly, keeps every float column — the columns
that can contain non-integral values — at float64 with values
untouched (never narrowed), and passes every non-numeric column
through unchanged; an integer column [1, 300000] narrows to 32-bit
(which fits 300000), not 8-bit, and a fractional column [1, 2.5]
stays at float64. -/
theorem c1_numeric_narrowing (t : PTable) (hwf : PTableWF t) :
    squeeze_numeric t = ⟨t.cols.map (fun p => (p.1, narrowSpecCol p.2))⟩ ∧
    downcastInteger IntWidth.i64 [1, 300000] = IntWidth.i32 ∧
    IntWidth.i32 ≠ IntWidth.i8 ∧
    fitsWidth IntWidth.i32 300000 = true ∧
    squeezeCol (ColData.floatsC FloatWidth.f64 [1, 5/2]) =
      ColData.floatsC FloatWidth.f64 [1, 5/2] ∧
    squeezeCol (ColData.floatsC FloatWidth.f32 [1, 5/2]) =
      ColData.floatsC FloatWidth.f64 [1, 5/2] := by
  refine ⟨?_, by decide, by decide, by decide, rfl, rfl⟩
  unfold squeeze_numeric
  congr 1
  apply List.map_congr_left
  intro p hp
  have hcol := hwf p hp
  cases hc : p.2 with
  | intsC w vs =>
    rw [hc] at hcol
    simp only [colWF] at hcol
    simp only [squeezeCol, narrowSpecCol, downcast_eq_min w vs hcol]
  | floatsC fw vs => rfl
  | strsC vs => rfl

/-- C1 witness: a concrete well-formed table with an integer, a float
and a string column is narrowed exactly as the spec-side description
states. -/
theorem c1_numeric_narrowing_witness :
    PTableWF ⟨[("v", ColData.intsC IntWidth.i64 [1, 300000]),
               ("p", ColData.floatsC FloatWidth.f64 [1, 5/2]),
               ("s", ColData.strsC ["x"])]⟩ ∧
    squeeze_numeric ⟨[("v", ColData.intsC IntWidth.i64 [1, 300000]),
                     ("p", ColData.floatsC FloatWidth.f64 [1, 5/2]),
                     ("s", ColData.strsC ["x"])]⟩ =
      ⟨([("v", ColData.intsC IntWidth.i64 [1, 300000]),
         ("p", ColData.floatsC FloatWidth.f64 [1, 5/2]),
         ("s", ColData.strsC ["x"])] : List (String × ColData)).map
          (fun p => (p.1, narrowSpecCol p.2))⟩ :=
  ⟨by unfold PTableWF; decide,
   (c1_numeric_narrowing
      ⟨[("v", ColData.intsC IntWidth.i64 [1, 300000]),
        ("p", ColData.floatsC FloatWidth.f64 [1, 5/2]),
        ("s", ColData.strsC ["x"])]⟩ (by unfold PTableWF; decide)).1⟩

/-- C2: the numeric narrower is idempotent — applying squeeze_numeric
to an already-narrowed table produces an identical table (same
columns, same dtypes, same values). -/
theorem c2_squeeze_idempotent (t : PTable) :
    squeeze_numeric (squeeze_numeric t) = squeeze_numeric t := by
  simp only [squeeze_numeric, List.map_map]
  congr 1
  apply List.map_congr_left
  intro p hp
  simp [Function.comp, squeezeCol_idem]

-- ### Lemmas about frame unification

theorem unionCols_eq_dedupFirst (fs : List Frame) :
    unionCols fs = dedupFirst ((fs.map Frame.cols).flatten) := by
  suffices h : ∀ (gs : List Frame) (acc : List String),
      gs.foldl (fun acc f => f.cols.foldl (fun a c => if c ∈ a then a else a ++ [c]) acc) acc =
        ((gs.map Frame.cols).flatten).foldl
          (fun a c => if c ∈ a then a else a ++ [c]) acc by
    exact h fs []
  intro gs
  induction gs with
  | nil => intro acc; rfl
  | cons f rest ih =>
    intro acc
    simp only [List.map_cons, List.flatten_cons, List.foldl_cons, List.foldl_append]
    exact ih _

/-- C3: for a non-empty list of frames, the unification step of
dumps_to_table produces the ordered first-seen union of the input
columns; the output rows are the frames' rows reindexed onto the union
and concatenated in frame order with intra-frame order preserved; the
total row count is the sum of the inputs' row counts; every cell at a
column absent from its source frame is the missing-value marker while
cells of present columns keep their source value; and the marker is
neither zero nor the empty string. -/
theorem c3_frame_unification (fs : List Frame) (_hne : fs ≠ []) :
    (concatFrames fs).cols = dedupFirst ((fs.map Frame.cols).flatten) ∧
    (concatFrames fs).rows =
      (fs.map (fun f => f.rows.map (reindexRow f.cols (concatFrames fs).cols))).flatten ∧
    (concatFrames fs).rows.length = (fs.map (fun f => f.rows.length)).sum ∧
    (∀ f ∈ fs, ∀ row ∈ f.rows, ∀ c ∈ (concatFrames fs).cols,
      getCellRow (concatFrames fs).cols (reindexRow f.cols (concatFrames fs).cols row) c =
        if c ∈ f.cols then getCellRow f.cols row c else Cell.na) ∧
    Cell.na ≠ Cell.intv 0 ∧ Cell.na ≠ Cell.strv "" := by
  refine ⟨unionCols_eq_dedupFirst fs, rfl, ?_, ?_, by decide, by decide⟩
  · show ((fs.map (fun f => f.rows.map (reindexRow f.cols (unionCols fs)))).flatten).length
        = (fs.map (fun f => f.rows.length)).sum
    simp only [List.length_flatten, List.map_map]
    congr 1
    apply List.map_congr_left
    intro f _
    simp [Function.comp]
  · intro f _hf row _hrow c hc
    exact reindex_cell f.cols (concatFrames fs).cols row c hc

/-- C3 witness: unifying F1 with columns a,b and F2 with columns b,c
gives columns a,b,c, markers in c for the F1 row and in a for the F2
row, and one plus one rows. -/
theorem c3_frame_unification_witness :
    (concatFrames [⟨["a", "b"], [[Cell.strv "x", Cell.intv 1]]⟩,
                   ⟨["b", "c"], [[Cell.intv 2, Cell.strv "y"]]⟩]).cols =
      dedupFirst (((
        [⟨["a", "b"], [[Cell.strv "x", Cell.intv 1]]⟩,
         ⟨["b", "c"], [[Cell.intv 2, Cell.strv "y"]]⟩] : List Frame).map Frame.cols).flatten) ∧
    (concatFrames [⟨["a", "b"], [[Cell.strv "x", Cell.intv 1]]⟩,
                   ⟨["b", "c"], [[Cell.intv 2, Cell.strv "y"]]⟩]).rows =
      ((([⟨["a", "b"], [[Cell.strv "x", Cell.intv 1]]⟩,
          ⟨["b", "c"], [[Cell.intv 2, Cell.strv "y"]]⟩] : List Frame)).map
        (fun f => f.rows.map (reindexRow f.cols
          (concatFrames [⟨["a", "b"], [[Cell.strv "x", Cell.intv 1]]⟩,
                         ⟨["b", "c"], [[Cell.intv 2, Cell.strv "y"]]⟩]).cols))).flatten ∧
    (concatFrames [⟨["a", "b"], [[Cell.strv "x", Cell.intv 1]]⟩,
                   ⟨["b", "c"], [[Cell.intv 2, Cell.strv "y"]]⟩]).rows.length =
      ((([⟨["a", "b"], [[Cell.strv "x", Cell.intv 1]]⟩,
          ⟨["b", "c"], [[Cell.intv 2, Cell.strv "y"]]⟩] : List Frame)).map
        (fun f => f.rows.length)).sum ∧
    (∀ f ∈ ([⟨["a", "b"], [[Cell.strv "x", Cell.intv 1]]⟩,
             ⟨["b", "c"], [[Cell.intv 2, Cell.strv "y"]]⟩] : List Frame),
      ∀ row ∈ f.rows,
      ∀ c ∈ (concatFrames [⟨["a", "b"], [[Cell.strv "x", Cell.intv 1]]⟩,
                           ⟨["b", "c"], [[Cell.intv 2, Cell.strv "y"]]⟩]).cols,
      getCellRow
          (concatFrames [⟨["a", "b"], [[Cell.strv "x", Cell.intv 1]]⟩,
                         ⟨["b", "c"], [[Cell.intv 2, Cell.strv "y"]]⟩]).cols
          (reindexRow f.cols
            (concatFrames [⟨["a", "b"], [[Cell.strv "x", Cell.intv 1]]⟩,
                           ⟨["b", "c"], [[Cell.intv 2, Cell.strv "y"]]⟩]).cols row) c =
        if c ∈ f.cols then getCellRow f.cols row c else Cell.na) ∧
    Cell.na ≠ Cell.intv 0 ∧ Cell.na ≠ Cell.strv "" :=
  c3_frame_unification
    [⟨["a", "b"], [[Cell.strv "x", Cell.intv 1]]⟩,
     ⟨["b", "c"], [[Cell.intv 2, Cell.strv "y"]]⟩] (by decide)

-- ### Lemmas about the columnar writer

theorem fsGet_set (fs : FileSys) (path : String) (content : List Piece) :
    fsGet (fsSet fs path content) path = some content := by
  simp [fsGet, fsSet, List.find?]

theorem fsGet_erase (fs : FileSys) (path : String) :
    fsGet (fsErase fs path) path = none := by
  unfold fsGet fsErase
  have h : List.find? (fun p => p.1 == path) (fs.filter (fun p => p.1 != path)) = none := by
    rw [List.find?_eq_none]
    intro x hx
    have hne := (List.mem_filter.mp hx).2
    rw [bne_iff_ne] at hne
    rw [beq_iff_eq]
    exact hne
  rw [h]
  rfl

theorem take_pieces_not_complete (t : PTable) (k : Nat)
    (hk : k < (writePieces t).length) :
    claimsComplete ((writePieces t).take k) = false := by
  unfold writePieces at hk ⊢
  have hlen : k ≤ ((bodyChunks t).map Piece.chunk).length := by
    simp only [List.length_append, List.length_map, List.length_cons, List.length_nil] at hk
    simp only [List.length_map]
    omega
  rw [List.take_append_of_le_length hlen]
  unfold claimsComplete
  cases hg : (((bodyChunks t).map Piece.chunk).take k).getLast? with
  | none => rfl
  | some p =>
    have hmem : p ∈ ((bodyChunks t).map Piece.chunk).take k := List.mem_of_mem_getLast? hg
    have hmem2 : p ∈ (bodyChunks t).map Piece.chunk := List.mem_of_mem_take hmem
    obtain ⟨b, _hb, rfl⟩ := List.mem_map.mp hmem2
    rfl

/-- C9: a write by write_arrow_table is all-or-nothing in the sense of
the container formats: on the fault-free run the destination holds the
complete piece stream ending in the terminal footer and the
destination path is returned, while a failure injected at any point
strictly before completion returns a write error and leaves no file at
the destination that claims completeness — the parquet path leaves a
truncated stream that lacks the terminal footer, and the feather path
removes the destination file entirely. -/
theorem c9_write_all_or_nothing (fs : FileSys) (t : PTable) (output : String)
    (format : WriteFormat) :
    (write_arrow_table fs t output format none =
        (Except.ok output, fsSet fs output (writePieces t)) ∧
      fsGet (fsSet fs output (writePieces t)) output = some (writePieces t) ∧
      claimsComplete (writePieces t) = true) ∧
    (∀ k, k < (writePieces t).length →
      (write_arrow_table fs t output format (some k)).1 = Except.error WriteErr.writeError ∧
      fileClaimsComplete (write_arrow_table fs t output format (some k)).2 output = false) := by
  constructor
  · refine ⟨rfl, fsGet_set fs output (writePieces t), ?_⟩
    unfold claimsComplete writePieces
    rw [List.getLast?_concat]
    rfl
  · intro k hk
    simp only [write_arrow_table]
    rw [if_pos hk]
    cases format with
    | feather =>
      refine ⟨rfl, ?_⟩
      unfold fileClaimsComplete
      rw [fsGet_erase]
    | parquet =>
      refine ⟨rfl, ?_⟩
      unfold fileClaimsComplete
      rw [fsGet_set]
      exact take_pieces_not_complete t k hk

/-- C9 witness: a concrete one-column table, written to a fresh file
system with a failure injected before the first piece: the result is a
write error and the destination holds no complete-claiming file. -/
theorem c9_write_all_or_nothing_witness :
    0 < (writePieces ⟨[("a", ColData.strsC [])]⟩).length ∧
    (write_arrow_table [] ⟨[("a", ColData.strsC [])]⟩ "dump.parquet"
        WriteFormat.parquet (some 0)).1 = Except.error WriteErr.writeError ∧
    fileClaimsComplete
      (write_arrow_table [] ⟨[("a", ColData.strsC [])]⟩ "dump.parquet"
        WriteFormat.parquet (some 0)).2 "dump.parquet" = false :=
  ⟨by decide,
   (c9_write_all_or_nothing [] ⟨[("a", ColData.strsC [])]⟩ "dump.parquet"
      WriteFormat.parquet).2 0 (by decide)⟩
